import Mathlib

/-!
Verification of the SchNetPack data-pipeline specification.

The repository excerpt contains the tutorial notebooks
(`examples/tutorials/tutorial_01_preparing_data.ipynb`,
`examples/tutorials/tutorial_03_force_models.ipynb`) and the packaging
metadata, but not the engine modules themselves.  The definitions below are
therefore shallow embeddings of the components the tutorials exercise
(`RemoveOffsets`/`AddOffsets`, `CastTo32`/`CastTo64`, `ASENeighborList`,
`ASEAtomsData.create`/`add_systems`, batch collation, and the `Forces`
derivative module), modelled from the specification's words.  Machine floats
are modelled by `ℚ` so that offset arithmetic is exact, and the automatic
differentiation used by the `Forces` module is modelled by the Fréchet
derivative over `ℝ`.
-/

namespace SchnetPack

/-- Modelled from the spec: a 3-vector of coordinates (positions, cell rows,
displacements).  Components are rationals standing in for machine floats. -/
structure V3 where
  x : ℚ
  y : ℚ
  z : ℚ
deriving DecidableEq, Repr

def V3.zero : V3 := ⟨0, 0, 0⟩

def V3.add (p q : V3) : V3 := ⟨p.x + q.x, p.y + q.y, p.z + q.z⟩

def V3.sub (p q : V3) : V3 := ⟨p.x - q.x, p.y - q.y, p.z - q.z⟩

def V3.zsmul (n : Int) (p : V3) : V3 := ⟨(n : ℚ) * p.x, (n : ℚ) * p.y, (n : ℚ) * p.z⟩

/-- Squared Euclidean norm of a displacement vector. -/
def V3.normSq (p : V3) : ℚ := p.x * p.x + p.y * p.y + p.z * p.z

/-- Modelled from the spec: a numeric array of a property record.  `dtype`
records the floating-point width, `shape` the array shape, `data` the
flattened values, and `perAtom` whether the leading dimension runs over the
atoms of the structure. -/
inductive DType where
  | f32
  | f64
  | intT
deriving DecidableEq, Repr

structure Tensor where
  dtype : DType
  shape : List Nat
  data : List ℚ
  perAtom : Bool
deriving DecidableEq, Repr

/-- Modelled from the spec: a property record, mapping property names to
numeric arrays (`§3 DATA MODEL`). -/
abbrev PropRecord := List (String × Tensor)

/-- Apply a tensor-level function to the entry of a record holding the given
property name, leaving every other entry unchanged. -/
def updateKey (k : String) (f : Tensor → Tensor) (r : PropRecord) : PropRecord :=
  r.map fun kv => if kv.1 = k then (kv.1, f kv.2) else kv

/-- Modelled from the spec: the additive offset used by
`trn.RemoveOffsets`/`trn.AddOffsets` — the training-set mean (when
`removeMean` is set) plus the sum of atomic-reference contributions of the
structure's atomic numbers (when `removeAtomrefs` is set).  `atomref` is the
table indexed by atomic number (`§3`, Atomic Reference Table). -/
def offsetValue (removeMean removeAtomrefs : Bool) (mean : ℚ) (atomref : List ℚ)
    (zs : List Nat) : ℚ :=
  (if removeMean then mean else 0) +
    (if removeAtomrefs then (zs.map fun z => atomref.getD z 0).sum else 0)

/-- Modelled from the spec: `trn.RemoveOffsets` — subtracts the training-set
mean and/or atomic-reference contribution from the named target property
(`§4.3`). -/
def RemoveOffsets (prop : String) (removeMean removeAtomrefs : Bool) (mean : ℚ)
    (atomref : List ℚ) (zs : List Nat) (r : PropRecord) : PropRecord :=
  updateKey prop
    (fun t => { t with data := t.data.map fun v => v - offsetValue removeMean removeAtomrefs mean atomref zs }) r

/-- Modelled from the spec: `trn.AddOffsets` — the paired post-processing
transform adding the same statistics back after inference (`§4.3`). -/
def AddOffsets (prop : String) (addMean addAtomrefs : Bool) (mean : ℚ)
    (atomref : List ℚ) (zs : List Nat) (r : PropRecord) : PropRecord :=
  updateKey prop
    (fun t => { t with data := t.data.map fun v => v + offsetValue addMean addAtomrefs mean atomref zs }) r

/-- Modelled from the spec: the tensor-level action of a precision cast —
tensors whose dtype equals the source width are converted to the target
width, with each stored value passed through the value-rounding function `f`
of the narrower format; other tensors are untouched (`§4.3`). -/
def castTensor (src tgt : DType) (f : ℚ → ℚ) (t : Tensor) : Tensor :=
  if t.dtype = src then { dtype := tgt, shape := t.shape, data := t.data.map f, perAtom := t.perAtom }
  else t

/-- Modelled from the spec: `trn.CastTo32`, parametrised by the
float64-to-float32 value rounding `f`. -/
def CastTo32 (f : ℚ → ℚ) (r : PropRecord) : PropRecord :=
  r.map fun kv => (kv.1, castTensor DType.f64 DType.f32 f kv.2)

/-- Modelled from the spec: `trn.CastTo64`, parametrised by the
float32-to-float64 value embedding `f`. -/
def CastTo64 (f : ℚ → ℚ) (r : PropRecord) : PropRecord :=
  r.map fun kv => (kv.1, castTensor DType.f32 DType.f64 f kv.2)

/-- Modelled from the spec: the owning-structure index array of a batch,
built per structure `k` as `n_k` copies of `k` (`§4.4`, the `_idx_m` array
shown in tutorial 01).  `k` is the index of the first structure of `sizes`. -/
def idxMFrom : List Nat → Nat → List Nat
  | [], _ => []
  | sz :: rest, k => List.replicate sz k ++ idxMFrom rest (k + 1)

/-- Modelled from the spec: the `_idx_m` array of a batch with the given
per-structure atom counts, structures numbered from 0. -/
def idx_m (sizes : List Nat) : List Nat := idxMFrom sizes 0

/-- Modelled from the spec: the batch assembler's atom axis — the per-atom
arrays of the input structures concatenated in input order, per-structure
order preserved (`§4.4`). -/
def batchAtoms {α : Type} (structs : List (List α)) : List α := structs.flatten

/-- Modelled from the spec: a molecular structure (`§3 DATA MODEL`): atomic
numbers, positions, an optional periodic cell given by its three rows, and
per-axis periodicity flags. -/
structure Atoms where
  numbers : List Nat
  positions : List V3
  cell1 : V3
  cell2 : V3
  cell3 : V3
  pbc1 : Bool
  pbc2 : Bool
  pbc3 : Bool
deriving DecidableEq, Repr

/-- Modelled from the spec: one record of the structure store — a structure
together with its named reference properties. -/
structure StoreRecord where
  atoms : Atoms
  props : PropRecord
deriving DecidableEq, Repr

/-- Modelled from the spec: the on-disk structure store (`§4.1`): declared
units, optional atomic-reference tables, and the list of stored records in
insertion order. -/
structure Store where
  distanceUnit : String
  propertyUnits : List (String × String)
  atomref : List (String × List ℚ)
  records : List StoreRecord
deriving DecidableEq, Repr

def errShape : String := "per-atom property shape mismatch"

def errRange : String := "index out of range"

def errType : String := "TypeError"

def errExists : String := "path already exists"

/-- Modelled from the spec: ingestion validation — every per-atom property
array's leading dimension must equal the structure's atom count (`§7`). -/
def validAgainst (a : Atoms) (p : PropRecord) : Bool :=
  p.all fun kv =>
    !kv.2.perAtom ||
      (match kv.2.shape with
       | [] => false
       | d :: _ => d == a.numbers.length)

/-- Modelled from the spec: appending a single validated record to the store;
an invalid record raises a validation error and is not appended. -/
def addSystem (st : Store) (p : PropRecord) (a : Atoms) : Except String Store :=
  if validAgainst a p then
    Except.ok { st with records := st.records ++ [⟨a, p⟩] }
  else Except.error errShape

def add_systems_aux : Store → List (PropRecord × Atoms) → Except String Store
  | st, [] => Except.ok st
  | st, pa :: rest =>
      match addSystem st pa.1 pa.2 with
      | Except.ok st1 => add_systems_aux st1 rest
      | Except.error e => Except.error e

/-- Modelled from the spec and the tutorial call
`new_dataset.add_systems(property_list, atoms_list)`: the store's bulk
ingestion, taking the property dictionaries as its first argument and the
structure list as its second, processing records sequentially. -/
def add_systems (st : Store) (propertyList : List PropRecord) (atomsList : List Atoms) :
    Except String Store :=
  add_systems_aux st (propertyList.zip atomsList)

/-- Modelled from the spec: random access by integer index (`§4.1`); an index
out of range fails with a range error. -/
def getByIndex (st : Store) (i : Nat) : Except String StoreRecord :=
  match st.records[i]? with
  | some r => Except.ok r
  | none => Except.error errRange

/-- Concrete data used by witnesses: a one-hydrogen structure. -/
def aExample : Atoms :=
  { numbers := [1], positions := [V3.zero], cell1 := V3.zero, cell2 := V3.zero,
    cell3 := V3.zero, pbc1 := false, pbc2 := false, pbc3 := false }

def keyEnergy : String := "energy"

def keyForces : String := "forces"

/-- Concrete data used by witnesses: a scalar energy property. -/
def pExample : PropRecord :=
  [(keyEnergy, { dtype := DType.f64, shape := [1], data := [5], perAtom := false })]

/-- Concrete data used by witnesses: a per-atom force array whose leading
dimension (2) disagrees with `aExample`'s atom count (1). -/
def pBadExample : PropRecord :=
  [(keyForces, { dtype := DType.f64, shape := [2, 3], data := [0, 0, 0, 0, 0, 0], perAtom := true })]

def unitAng : String := "Ang"

def unitEnergy : String := "kcal/mol"

def emptyStoreExample : Store :=
  { distanceUnit := unitAng, propertyUnits := [(keyEnergy, unitEnergy)], atomref := [],
    records := [] }

def storeAfterExample : Store :=
  { emptyStoreExample with records := [⟨aExample, pExample⟩] }

/-- Modelled from the spec: a dynamically-typed argument value, as the
Python call site passes them — either a structure object or a property
dictionary.  This makes the positional argument order of `add_systems`
observable. -/
inductive PyObj where
  | atomsObj (a : Atoms)
  | propsObj (p : PropRecord)
deriving DecidableEq, Repr

def asProps : PyObj → Except String PropRecord
  | PyObj.propsObj p => Except.ok p
  | PyObj.atomsObj _ => Except.error errType

def asAtoms : PyObj → Except String Atoms
  | PyObj.atomsObj a => Except.ok a
  | PyObj.propsObj _ => Except.error errType

def mapExcept {α β : Type} (f : α → Except String β) : List α → Except String (List β)
  | [] => Except.ok []
  | x :: xs =>
      match f x, mapExcept f xs with
      | Except.ok y, Except.ok ys => Except.ok (y :: ys)
      | Except.error e, _ => Except.error e
      | Except.ok _, Except.error e => Except.error e

/-- Modelled from the spec and the tutorial call
`new_dataset.add_systems(property_list, atoms_list)`: `add_systems` on
dynamically-typed positional arguments — the FIRST positional argument is
interpreted as the list of property dictionaries and the SECOND as the list
of structures. -/
def add_systems_dyn (st : Store) (arg1 arg2 : List PyObj) : Except String Store :=
  match mapExcept asProps arg1, mapExcept asAtoms arg2 with
  | Except.ok ps, Except.ok ats => add_systems st ps ats
  | Except.error e, _ => Except.error e
  | Except.ok _, Except.error e => Except.error e

/-- Modelled from the spec: the file-system view of named stores, an
association from path to store contents. -/
abbrev FileSystem := List (String × Store)

def lookupFS (fs : FileSystem) (path : String) : Option Store :=
  (fs.find? fun e => e.1 == path).map fun e => e.2

/-- The freshly initialized empty store with the declared units and
reference table. -/
def emptyStoreOf (du : String) (punits : List (String × String))
    (aref : List (String × List ℚ)) : Store :=
  { distanceUnit := du, propertyUnits := punits, atomref := aref, records := [] }

/-- Modelled from the spec: `ASEAtomsData.create` (`§4.1`) — initializes an
empty store at `path` with the declared distance unit, property units and
optional atomic-reference table; fails when the path already exists and
overwrite was not requested, leaving the file system unchanged. -/
def create (fs : FileSystem) (path du : String) (punits : List (String × String))
    (aref : List (String × List ℚ)) (overwrite : Bool) : Except String FileSystem :=
  if (lookupFS fs path).isSome && !overwrite then Except.error errExists
  else
    Except.ok ((path, emptyStoreOf du punits aref) :: fs.filter fun e => !(e.1 == path))

def pathExample : String := "./new_dataset.db"

def fsExample : FileSystem := [(pathExample, storeAfterExample)]

/-- Modelled from the spec: the periodic-image shifts enumerated along one
cell axis — the integers in `[-m, m]` when the axis is periodic, `0` alone
otherwise.  The enumeration bound `m` is a parameter of the model because
the spec explicitly leaves the periodic-image enumeration strategy open
(`§9 DESIGN NOTES`). -/
def offsetAxis (b : Bool) (m : Nat) : List Int :=
  if b then (List.range (2 * m + 1)).map (fun (k : Nat) => (k : Int) - (m : Int)) else [0]

/-- The periodic-image index triples enumerated for a structure. -/
def offsetsOf (a : Atoms) (m : Nat) : List (Int × Int × Int) :=
  (offsetAxis a.pbc1 m) ×ˢ (offsetAxis a.pbc2 m) ×ˢ (offsetAxis a.pbc3 m)

/-- The lattice translation of an image index triple. -/
def shiftVec (a : Atoms) (o : Int × Int × Int) : V3 :=
  V3.add (V3.zsmul o.1 a.cell1) (V3.add (V3.zsmul o.2.1 a.cell2) (V3.zsmul o.2.2 a.cell3))

def posAt (a : Atoms) (i : Nat) : V3 := a.positions.getD i V3.zero

/-- Displacement from center atom `i` to the image of neighbor atom `j`
shifted by the lattice translation `o`. -/
def dispVec (a : Atoms) (i j : Nat) (o : Int × Int × Int) : V3 :=
  V3.sub (V3.add (posAt a j) (shiftVec a o)) (posAt a i)

/-- One directed neighbor-list entry: center index, neighbor index, periodic
image, and displacement vector. -/
structure NLEntry where
  idx_i : Nat
  idx_j : Nat
  offset : Int × Int × Int
  Rij : V3
deriving DecidableEq, Repr

def nlKey (e : NLEntry) : Nat × Nat × (Int × Int × Int) := (e.idx_i, e.idx_j, e.offset)

def nlCandidates (a : Atoms) (m : Nat) : List (Nat × Nat × (Int × Int × Int)) :=
  (List.range a.positions.length) ×ˢ (List.range a.positions.length) ×ˢ (offsetsOf a m)

/-- Modelled from the spec: `trn.ASENeighborList` (`§4.2`) — enumerates all
directed (center, neighbor, image) candidates, drops the same-atom
same-image self pair, and keeps a pair exactly when its interatomic
distance is strictly below the cutoff (compared on squared distances, which
is equivalent for a non-negative cutoff).  The strict comparison is forced
by the spec's own degenerate-input contract (`§7`): a zero cutoff must
yield no neighbors even for overlapping atoms at distance zero. -/
def ASENeighborList (cutoff : ℚ) (m : Nat) (a : Atoms) : List NLEntry :=
  (nlCandidates a m).filterMap fun t =>
    if t.1 = t.2.1 ∧ t.2.2 = (0, 0, 0) then none
    else if (dispVec a t.1 t.2.1 t.2.2).normSq < cutoff * cutoff then
      some ⟨t.1, t.2.1, t.2.2, dispVec a t.1 t.2.1 t.2.2⟩
    else none

/-- Concrete structure for the C2 boundary counterexample and witness: two
atoms on the x axis at distance exactly 1, no periodicity. -/
def twoAtomsApart : Atoms :=
  { numbers := [1, 1], positions := [V3.zero, ⟨1, 0, 0⟩], cell1 := V3.zero,
    cell2 := V3.zero, cell3 := V3.zero, pbc1 := false, pbc2 := false, pbc3 := false }

/-- Concrete structures for the C6 witness: the empty structure, and two
distinct atoms overlapping at the origin. -/
def emptyAtoms : Atoms :=
  { numbers := [], positions := [], cell1 := V3.zero, cell2 := V3.zero, cell3 := V3.zero,
    pbc1 := false, pbc2 := false, pbc3 := false }

def overlapAtoms : Atoms :=
  { numbers := [1, 1], positions := [V3.zero, V3.zero], cell1 := V3.zero, cell2 := V3.zero,
    cell3 := V3.zero, pbc1 := false, pbc2 := false, pbc3 := false }

def kIdx : String := "_idx"

def kNAtoms : String := "_n_atoms"

def kZ : String := "_atomic_numbers"

def kR : String := "_positions"

def kCell : String := "_cell"

def kPbc : String := "_pbc"

def kRij : String := "_Rij"

def kIdxI : String := "_idx_i"

def kIdxJ : String := "_idx_j"

def kIdxM : String := "_idx_m"

def defaultTensor : Tensor :=
  { dtype := DType.f64, shape := [0], data := [], perAtom := false }

def scalarNatTensor (n : Nat) : Tensor :=
  { dtype := DType.intT, shape := [1], data := [(n : ℚ)], perAtom := false }

def natsTensor (ns : List Nat) : Tensor :=
  { dtype := DType.intT, shape := [ns.length], data := ns.map fun n => (n : ℚ), perAtom := false }

def vecsTensor (vs : List V3) : Tensor :=
  { dtype := DType.f64, shape := [vs.length, 3],
    data := (vs.map fun v => [v.x, v.y, v.z]).flatten, perAtom := true }

def boolQ (b : Bool) : ℚ := if b then 1 else 0

def pbcTensor (a : Atoms) : Tensor :=
  { dtype := DType.intT, shape := [3], data := [boolQ a.pbc1, boolQ a.pbc2, boolQ a.pbc3],
    perAtom := false }

def cellTensor (a : Atoms) : Tensor :=
  { dtype := DType.f64, shape := [3, 3],
    data := ([a.cell1, a.cell2, a.cell3].map fun v => [v.x, v.y, v.z]).flatten,
    perAtom := false }

/-- Modelled from the spec and tutorial 01: loading a dataset item by
zero-based index produces a dictionary of tensors holding the reserved
geometry keys (`_n_atoms`, `_atomic_numbers`, `_positions`, `_idx`, `_cell`,
`_pbc`) together with the stored reference properties. -/
def loadItem (idx : Nat) (rec : StoreRecord) : PropRecord :=
  (kNAtoms, scalarNatTensor rec.atoms.numbers.length) ::
    (kZ, natsTensor rec.atoms.numbers) ::
    (kR, vecsTensor rec.atoms.positions) ::
    (kIdx, scalarNatTensor idx) ::
    (kCell, cellTensor rec.atoms) ::
    (kPbc, pbcTensor rec.atoms) :: rec.props

def lookupT (item : PropRecord) (k : String) : Tensor :=
  ((item.find? fun kv => kv.1 == k).map fun kv => kv.2).getD defaultTensor

def keysOf (r : PropRecord) : List String := r.map Prod.fst

def decodeV3s : List ℚ → List V3
  | a :: b :: c :: rest => ⟨a, b, c⟩ :: decodeV3s rest
  | _ => []

def natOfQ (q : ℚ) : Nat := q.num.toNat

def rows3 (l : List V3) : V3 × V3 × V3 :=
  match l with
  | u :: v :: w :: _ => (u, v, w)
  | _ => (V3.zero, V3.zero, V3.zero)

/-- Recover the geometry of an item from its reserved tensors. -/
def decodeAtoms (item : PropRecord) : Atoms :=
  let c := rows3 (decodeV3s (lookupT item kCell).data)
  let p := (lookupT item kPbc).data
  { numbers := (lookupT item kZ).data.map natOfQ,
    positions := decodeV3s (lookupT item kR).data,
    cell1 := c.1, cell2 := c.2.1, cell3 := c.2.2,
    pbc1 := decide (p.getD 0 0 ≠ 0), pbc2 := decide (p.getD 1 0 ≠ 0),
    pbc3 := decide (p.getD 2 0 ≠ 0) }

/-- Modelled from the spec: the neighbor-list preprocessing transform —
appends the displacement vectors `_Rij` and the center/neighbor index
arrays `_idx_i`/`_idx_j` computed from the item's geometry, leaving every
pre-existing entry of the record in place. -/
def neighborTransform (cutoff : ℚ) (m : Nat) (item : PropRecord) : PropRecord :=
  let nl := ASENeighborList cutoff m (decodeAtoms item)
  item ++
    [(kRij, vecsTensor (nl.map fun e => e.Rij)),
      (kIdxI, natsTensor (nl.map fun e => e.idx_i)),
      (kIdxJ, natsTensor (nl.map fun e => e.idx_j))]

def itemNAtoms (item : PropRecord) : Nat := natOfQ ((lookupT item kNAtoms).data.getD 0 0)

def concatTensors (ts : List Tensor) : Tensor :=
  { dtype := (ts.headD defaultTensor).dtype, shape := [(ts.map fun t => t.data.length).sum],
    data := (ts.map fun t => t.data).flatten, perAtom := (ts.headD defaultTensor).perAtom }

/-- Modelled from the spec: the batch assembler (`§4.4`) — prepends the
per-atom owning-structure index `_idx_m` and concatenates the items'
tensors key by key. -/
def collate (items : List PropRecord) : PropRecord :=
  (kIdxM, natsTensor (idx_m (items.map itemNAtoms))) ::
    (match items with
     | [] => []
     | it :: _ => it.map fun kv => (kv.1, concatTensors (items.map fun j => lookupT j kv.1)))

/-- A single atomic coordinate vector over the reals. -/
abbrev R3 := Fin 3 → ℝ

/-- A configuration of `n` atomic positions. -/
abbrev Config (n : Nat) := Fin n → R3

/-- Modelled from the spec: the `spk.atomistic.Forces` output module
(`§4.5`) — the external framework's reverse-mode automatic differentiation
is modelled by the Fréchet derivative, and `force n E R i v` is the
component along direction `v` of the force on atom `i`: the negative
gradient of the scalar energy output `E` with respect to the atomic
positions, evaluated at configuration `R`. -/
noncomputable def force (n : Nat) (E : Config n → ℝ) (R : Config n) (i : Fin n) (v : R3) : ℝ :=
  -(fderiv ℝ E R) (Pi.single i v)

def zeroE : Config 1 → ℝ := fun _ => 0

def cfg0 : Config 1 := fun _ _ => 0

def v1 : R3 := fun _ => 1

theorem updateKey_updateKey (k : String) (f g : Tensor → Tensor) (r : PropRecord) :
    updateKey k f (updateKey k g r) = updateKey k (fun t => f (g t)) r := by
  induction r with
  | nil => rfl
  | cons kv r ih =>
      by_cases h : kv.1 = k <;> simp_all [updateKey, h]

theorem updateKey_eq_self (k : String) (f : Tensor → Tensor) (r : PropRecord)
    (hf : ∀ t, f t = t) : updateKey k f r = r := by
  induction r with
  | nil => rfl
  | cons kv r ih =>
      show (if kv.1 = k then (kv.1, f kv.2) else kv) :: updateKey k f r = kv :: r
      by_cases h : kv.1 = k
      · rw [if_pos h, hf, ih]
      · rw [if_neg h, ih]

/-- C1: for every property record and fixed statistics (training-set mean
and/or atomic-reference table), `AddOffsets` applied after `RemoveOffsets`
with the same statistics returns the original property values — the
round-trip is the identity (exactly, over the exact-arithmetic model, hence
within any floating-point tolerance). -/
theorem c1_add_offsets_inverse (prop : String) (removeMean removeAtomrefs : Bool)
    (mean : ℚ) (atomref : List ℚ) (zs : List Nat) (r : PropRecord) :
    AddOffsets prop removeMean removeAtomrefs mean atomref zs
      (RemoveOffsets prop removeMean removeAtomrefs mean atomref zs r) = r := by
  unfold AddOffsets RemoveOffsets
  rw [updateKey_updateKey]
  apply updateKey_eq_self
  intro t
  cases t with
  | mk d s dat pa =>
    simp only [List.map_map]
    congr 1
    have h : ∀ v : ℚ,
        v - offsetValue removeMean removeAtomrefs mean atomref zs +
          offsetValue removeMean removeAtomrefs mean atomref zs = v := by
      intro v; ring
    calc dat.map ((fun v => v + offsetValue removeMean removeAtomrefs mean atomref zs) ∘
            (fun v => v - offsetValue removeMean removeAtomrefs mean atomref zs))
        = dat.map id := by
          apply List.map_congr_left
          intro a _
          simp [Function.comp, h]
      _ = dat := List.map_id dat

theorem castTensor_shape (src tgt : DType) (f : ℚ → ℚ) (t : Tensor) :
    (castTensor src tgt f t).shape = t.shape := by
  unfold castTensor; split <;> rfl

theorem castTensor_perAtom (src tgt : DType) (f : ℚ → ℚ) (t : Tensor) :
    (castTensor src tgt f t).perAtom = t.perAtom := by
  unfold castTensor; split <;> rfl

/-- C9: precision-cast transforms (`CastTo32`, `CastTo64`) keep the key list
of the property record unchanged (no key added or removed) and keep the
shape of every numeric array unchanged — only the floating-point width of
the values (the dtype and the value rounding) changes. -/
theorem c9_cast_preserves_keys_shapes (f g : ℚ → ℚ) (r : PropRecord) :
    (CastTo32 f r).map Prod.fst = r.map Prod.fst ∧
    (CastTo32 f r).map (fun kv => kv.2.shape) = r.map (fun kv => kv.2.shape) ∧
    (CastTo64 g r).map Prod.fst = r.map Prod.fst ∧
    (CastTo64 g r).map (fun kv => kv.2.shape) = r.map (fun kv => kv.2.shape) := by
  refine ⟨?_, ?_, ?_, ?_⟩ <;>
    simp [CastTo32, CastTo64, List.map_map, Function.comp, castTensor_shape]

theorem idxMFrom_length (sizes : List Nat) : ∀ k, (idxMFrom sizes k).length = sizes.sum := by
  induction sizes with
  | nil => intro k; rfl
  | cons sz rest ih => intro k; simp [idxMFrom, ih, Nat.add_comm]

theorem idxMFrom_lower_bound (sizes : List Nat) :
    ∀ k, ∀ x ∈ idxMFrom sizes k, k ≤ x := by
  induction sizes with
  | nil => intro k x hx; simp [idxMFrom] at hx
  | cons sz rest ih =>
      intro k x hx
      simp only [idxMFrom, List.mem_append] at hx
      rcases hx with hx | hx
      · exact (List.eq_of_mem_replicate hx).ge
      · exact Nat.le_of_succ_le (ih (k + 1) x hx)

theorem sorted_replicate (n k : Nat) : List.Sorted (· ≤ ·) (List.replicate n k) := by
  induction n with
  | zero => simp
  | succ n ih =>
      rw [List.replicate_succ]
      exact List.Pairwise.cons (fun b hb => (List.eq_of_mem_replicate hb).ge) ih

theorem idxMFrom_sorted (sizes : List Nat) :
    ∀ k, List.Sorted (· ≤ ·) (idxMFrom sizes k) := by
  induction sizes with
  | nil => intro k; simp [idxMFrom]
  | cons sz rest ih =>
      intro k
      rw [idxMFrom]
      refine List.pairwise_append.mpr ⟨sorted_replicate sz k, ih (k + 1), ?_⟩
      intro a ha b hb
      have ha' := List.eq_of_mem_replicate ha
      have hb' := idxMFrom_lower_bound rest (k + 1) b hb
      omega

/-- C3: the batch assembler synthesizes an owning-structure index array with
one entry per atom (its length is the total atom count), values
non-decreasing; whenever the first structure is non-empty the array starts
at 0; atoms appear in input-structure order with per-structure order
preserved (the batch is the in-order concatenation); and for structures of
sizes `[3, 5, 2]` the array equals `[0,0,0,1,1,1,1,1,2,2]`. -/
theorem c3_idx_m_correct (sizes : List Nat) (structs : List (List V3)) (xs : List V3) :
    (idx_m sizes).length = sizes.sum ∧
    List.Sorted (· ≤ ·) (idx_m sizes) ∧
    (∀ s0 rest, sizes = s0 :: rest → 0 < s0 → (idx_m sizes).head? = some 0) ∧
    (idx_m (structs.map List.length)).length = (batchAtoms structs).length ∧
    batchAtoms (xs :: structs) = xs ++ batchAtoms structs ∧
    idx_m [3, 5, 2] = [0, 0, 0, 1, 1, 1, 1, 1, 2, 2] := by
  refine ⟨idxMFrom_length sizes 0, idxMFrom_sorted sizes 0, ?_, ?_, ?_, ?_⟩
  · intro s0 rest hs h0
    subst hs
    cases s0 with
    | zero => omega
    | succ n => simp [idx_m, idxMFrom, List.replicate_succ]
  · simp [idx_m, idxMFrom_length, batchAtoms]
  · simp [batchAtoms]
  · rfl

/-- Witness for C3 at the concrete sizes `[3, 5, 2]`: the head of the index
array is 0. -/
theorem c3_idx_m_correct_witness : (idx_m [3, 5, 2]).head? = some 0 :=
  (c3_idx_m_correct [3, 5, 2] [] []).2.2.1 3 [5, 2] rfl (by decide)

theorem add_systems_aux_records :
    ∀ (l : List (PropRecord × Atoms)) (st st' : Store),
      add_systems_aux st l = Except.ok st' →
      st'.records = st.records ++ l.map (fun pa => (⟨pa.2, pa.1⟩ : StoreRecord)) := by
  intro l
  induction l with
  | nil =>
      intro st st' h
      cases h
      simp
  | cons pa l ih =>
      intro st st' h
      unfold add_systems_aux addSystem at h
      by_cases hv : validAgainst pa.2 pa.1
      · rw [if_pos hv] at h
        have h2 := ih { st with records := st.records ++ [⟨pa.2, pa.1⟩] } st' h
        simp at h2
        simp [h2]
      · rw [if_neg hv] at h
        exact absurd h (by simp)

/-- C4: records appended through `add_systems` are returned verbatim by
random access — for the `j`-th added record, reading index
`(previous length) + j` yields exactly the atomic numbers, positions, and
property values that were added (unit conversion is the identity at the
store boundary in this model), and any index past the end fails with a
range error. -/
theorem c4_store_roundtrip (st st' : Store) (ps : List PropRecord) (ats : List Atoms)
    (h : add_systems st ps ats = Except.ok st') :
    (∀ j (hj : j < (ps.zip ats).length),
      getByIndex st' (st.records.length + j) =
        Except.ok ⟨((ps.zip ats).get ⟨j, hj⟩).2, ((ps.zip ats).get ⟨j, hj⟩).1⟩) ∧
    (∀ i, st'.records.length ≤ i → getByIndex st' i = Except.error errRange) := by
  have hrec := add_systems_aux_records (ps.zip ats) st st' h
  constructor
  · intro j hj
    unfold getByIndex
    rw [hrec, List.getElem?_append_right (Nat.le_add_right _ _)]
    have he : st.records.length + j - st.records.length = j := by omega
    rw [he, List.getElem?_map, List.getElem?_eq_getElem hj]
    simp
  · intro i hi
    unfold getByIndex
    rw [List.getElem?_eq_none hi]

/-- Witness for C4: a one-record ingestion into the empty store and its
retrieval, plus the range error at index 1. -/
theorem c4_store_roundtrip_witness :
    getByIndex storeAfterExample 0 = Except.ok ⟨aExample, pExample⟩ ∧
    getByIndex storeAfterExample 1 = Except.error errRange := by
  have h := c4_store_roundtrip emptyStoreExample storeAfterExample [pExample] [aExample] rfl
  exact ⟨h.1 0 (by decide), h.2 1 (by decide)⟩

theorem c5_counterexample :
    add_systems_dyn emptyStoreExample [PyObj.atomsObj aExample] [PyObj.propsObj pExample] =
      Except.error errType ∧
    add_systems_dyn emptyStoreExample [PyObj.propsObj pExample] [PyObj.atomsObj aExample] =
      Except.ok storeAfterExample := by
  constructor <;> rfl

theorem validAgainst_false_of_mismatch (a : Atoms) (p : PropRecord)
    (kv : String × Tensor) (hmem : kv ∈ p) (hper : kv.2.perAtom = true)
    (hdim : kv.2.shape.head? ≠ some a.numbers.length) :
    validAgainst a p = false := by
  unfold validAgainst
  rw [List.all_eq_false]
  refine ⟨kv, hmem, ?_⟩
  rw [hper]
  cases hs : kv.2.shape with
  | nil => simp
  | cons d rest =>
      rw [hs] at hdim
      simp only [List.head?] at hdim
      have hd : d ≠ a.numbers.length := fun he => hdim (by rw [he])
      simp [hd]

/-- C5 (amended): `add_systems` takes the property dictionaries as its first
argument and the structure list as its second; it processes records
sequentially (atomically per record): a valid record is appended to the
store, and a record whose per-atom property's leading dimension disagrees
with the structure's atom count fails with a validation error and is not
appended. -/
theorem c5_add_systems_validation (st : Store) (p : PropRecord) (a : Atoms)
    (ps : List PropRecord) (ats : List Atoms) :
    (add_systems st (p :: ps) (a :: ats) =
      match addSystem st p a with
      | Except.ok st1 => add_systems st1 ps ats
      | Except.error e => Except.error e) ∧
    (validAgainst a p = true →
      addSystem st p a = Except.ok { st with records := st.records ++ [⟨a, p⟩] }) ∧
    (∀ kv ∈ p, kv.2.perAtom = true → kv.2.shape.head? ≠ some a.numbers.length →
      addSystem st p a = Except.error errShape) := by
  refine ⟨rfl, ?_, ?_⟩
  · intro hv
    unfold addSystem
    rw [if_pos hv]
  · intro kv hmem hper hdim
    unfold addSystem
    rw [if_neg ?_]
    rw [validAgainst_false_of_mismatch a p kv hmem hper hdim]
    simp

/-- Witness for C5 (amended): the valid example record is appended; the
record with the mismatched per-atom force array is rejected. -/
theorem c5_add_systems_validation_witness :
    addSystem emptyStoreExample pExample aExample = Except.ok storeAfterExample ∧
    addSystem emptyStoreExample pBadExample aExample = Except.error errShape := by
  refine ⟨(c5_add_systems_validation emptyStoreExample pExample aExample [] []).2.1 (by decide),
    (c5_add_systems_validation emptyStoreExample pBadExample aExample [] []).2.2
      (keyForces, { dtype := DType.f64, shape := [2, 3], data := [0, 0, 0, 0, 0, 0], perAtom := true })
      (by decide) (by decide) (by decide)⟩

/-- C7: `create` initializes an empty store with the declared units and
reference table when the path is fresh, and fails (returning an error and
producing no new file system, so the existing store is untouched) when the
path already exists and overwrite was not requested. -/
theorem c7_create (fs : FileSystem) (path du : String) (punits : List (String × String))
    (aref : List (String × List ℚ)) (s : Store) :
    (lookupFS fs path = some s →
      create fs path du punits aref false = Except.error errExists) ∧
    (lookupFS fs path = none →
      ∃ fs', create fs path du punits aref false = Except.ok fs' ∧
        lookupFS fs' path = some (emptyStoreOf du punits aref)) := by
  constructor
  · intro h
    unfold create
    rw [if_pos (by simp [h])]
  · intro h
    unfold create
    rw [if_neg (by simp [h])]
    refine ⟨_, rfl, ?_⟩
    simp [lookupFS]

/-- Witness for C7: creating at an occupied path fails; creating at a fresh
path yields the empty store with the declared units. -/
theorem c7_create_witness :
    create fsExample pathExample unitAng [(keyEnergy, unitEnergy)] [] false =
      Except.error errExists ∧
    ∃ fs', create [] pathExample unitAng [(keyEnergy, unitEnergy)] [] false = Except.ok fs' ∧
      lookupFS fs' pathExample =
        some (emptyStoreOf unitAng [(keyEnergy, unitEnergy)] []) :=
  ⟨(c7_create fsExample pathExample unitAng [(keyEnergy, unitEnergy)] [] storeAfterExample).1 rfl,
    (c7_create [] pathExample unitAng [(keyEnergy, unitEnergy)] [] storeAfterExample).2 rfl⟩

theorem V3.normSq_nonneg (p : V3) : 0 ≤ p.normSq := by
  unfold V3.normSq
  have hx := mul_self_nonneg p.x
  have hy := mul_self_nonneg p.y
  have hz := mul_self_nonneg p.z
  linarith

theorem nodup_map_filterMap {α β : Type} (f : α → Option β) (g : β → α)
    (hfg : ∀ x y, f x = some y → g y = x) :
    ∀ l : List α, l.Nodup → ((l.filterMap f).map g).Nodup := by
  intro l
  induction l with
  | nil => intro _; simp
  | cons x l ih =>
      intro hnd
      rw [List.filterMap_cons]
      cases hf : f x with
      | none => exact ih (List.nodup_cons.mp hnd).2
      | some y =>
          rw [List.map_cons]
          refine List.nodup_cons.mpr ⟨?_, ih (List.nodup_cons.mp hnd).2⟩
          rw [hfg x y hf]
          intro hmem
          rcases List.mem_map.mp hmem with ⟨y', hy', hgy'⟩
          rcases List.mem_filterMap.mp hy' with ⟨x', hx', hfx'⟩
          have hx'' : g y' = x' := hfg x' y' hfx'
          rw [hgy'] at hx''
          exact (List.nodup_cons.mp hnd).1 (hx'' ▸ hx')

theorem mem_nlCandidates (a : Atoms) (m : Nat) (i j : Nat) (o : Int × Int × Int) :
    (i, j, o) ∈ nlCandidates a m ↔
      i < a.positions.length ∧ j < a.positions.length ∧ o ∈ offsetsOf a m := by
  unfold nlCandidates
  rw [List.mem_product, List.mem_product, List.mem_range, List.mem_range]

theorem offsetAxis_nodup (b : Bool) (m : Nat) : (offsetAxis b m).Nodup := by
  unfold offsetAxis
  split
  · refine (List.nodup_range _).map ?_
    intro x y hxy
    have hxy' : (x : Int) - (m : Int) = (y : Int) - (m : Int) := hxy
    omega
  · simp

theorem nlCandidates_nodup (a : Atoms) (m : Nat) : (nlCandidates a m).Nodup := by
  unfold nlCandidates offsetsOf
  exact (List.nodup_range _).product ((List.nodup_range _).product
    ((offsetAxis_nodup _ _).product ((offsetAxis_nodup _ _).product (offsetAxis_nodup _ _))))

theorem offsetsOf_nonperiodic (a : Atoms) (m : Nat) (h1 : a.pbc1 = false)
    (h2 : a.pbc2 = false) (h3 : a.pbc3 = false) :
    offsetsOf a m = [(0, 0, 0)] := by
  unfold offsetsOf offsetAxis
  rw [h1, h2, h3]
  rfl

/-- C2 (amended): the neighbor-list builder is sound, complete and
duplicate-free relative to the enumerated periodic images, with STRICT
cutoff comparison: every reported entry has in-range indices, an enumerated
image, the true displacement vector, squared distance strictly below the
squared cutoff, and is not a same-atom same-image self pair; conversely
every directed candidate pair at distance strictly below the cutoff appears;
and each (center, neighbor, image) triple appears at most once.  A pair at
distance exactly the cutoff is NOT reported (see the counterexample), so
the claim's "at most the cutoff" completeness fails as stated. -/
theorem c2_neighborlist (a : Atoms) (cutoff : ℚ) (m : Nat) :
    (∀ e ∈ ASENeighborList cutoff m a,
      e.idx_i < a.positions.length ∧ e.idx_j < a.positions.length ∧
      e.offset ∈ offsetsOf a m ∧
      e.Rij = dispVec a e.idx_i e.idx_j e.offset ∧
      e.Rij.normSq < cutoff * cutoff ∧
      ¬(e.idx_i = e.idx_j ∧ e.offset = (0, 0, 0))) ∧
    (∀ i j o, i < a.positions.length → j < a.positions.length → o ∈ offsetsOf a m →
      ¬(i = j ∧ o = (0, 0, 0)) → (dispVec a i j o).normSq < cutoff * cutoff →
      (⟨i, j, o, dispVec a i j o⟩ : NLEntry) ∈ ASENeighborList cutoff m a) ∧
    ((ASENeighborList cutoff m a).map nlKey).Nodup := by
  refine ⟨?_, ?_, ?_⟩
  · intro e he
    rcases List.mem_filterMap.mp he with ⟨t, ht, hf⟩
    split_ifs at hf with h1 h2
    injection hf with hf
    subst hf
    have hmem := (mem_nlCandidates a m t.1 t.2.1 t.2.2).mp ht
    exact ⟨hmem.1, hmem.2.1, hmem.2.2, rfl, h2, h1⟩
  · intro i j o hi hj ho hne hlt
    refine List.mem_filterMap.mpr ⟨(i, j, o), ?_, ?_⟩
    · exact (mem_nlCandidates a m i j o).mpr ⟨hi, hj, ho⟩
    · rw [if_neg hne, if_pos hlt]
  · refine nodup_map_filterMap _ nlKey ?_ _ (nlCandidates_nodup a m)
    intro t e hf
    split_ifs at hf with h1 h2
    injection hf with hf
    subst hf
    rfl

theorem c2_counterexample :
    (dispVec twoAtomsApart 0 1 (0, 0, 0)).normSq = 1 * 1 ∧
    ASENeighborList 1 0 twoAtomsApart = [] := by
  constructor
  · norm_num [dispVec, posAt, shiftVec, V3.zsmul, V3.add, V3.sub, V3.normSq,
      twoAtomsApart, V3.zero, List.getD_cons_zero, List.getD_cons_succ]
  · unfold ASENeighborList
    rw [List.filterMap_eq_nil_iff]
    intro t ht
    have hmem := (mem_nlCandidates twoAtomsApart 0 t.1 t.2.1 t.2.2).mp ht
    rw [offsetsOf_nonperiodic _ _ rfl rfl rfl] at hmem
    have ho : t.2.2 = (0, 0, 0) := by simpa using hmem.2.2
    have hi : t.1 = 0 ∨ t.1 = 1 := by
      have h := hmem.1
      simp [twoAtomsApart] at h
      omega
    have hj : t.2.1 = 0 ∨ t.2.1 = 1 := by
      have h := hmem.2.1
      simp [twoAtomsApart] at h
      omega
    rcases hi with hi | hi <;> rcases hj with hj | hj <;>
      simp only [hi, hj, ho] <;>
      norm_num [dispVec, posAt, shiftVec, V3.zsmul, V3.add, V3.sub, V3.normSq,
        twoAtomsApart, V3.zero, List.getD_cons_zero, List.getD_cons_succ]

/-- Witness for C2 at a cutoff of 2: the directed pair (0 → 1) at distance 1
is reported with its true displacement, and the key list is duplicate
free. -/
theorem c2_neighborlist_witness :
    (⟨0, 1, (0, 0, 0), dispVec twoAtomsApart 0 1 (0, 0, 0)⟩ : NLEntry) ∈
      ASENeighborList 2 0 twoAtomsApart ∧
    ((ASENeighborList 2 0 twoAtomsApart).map nlKey).Nodup :=
  ⟨(c2_neighborlist twoAtomsApart 2 0).2.1 0 1 (0, 0, 0) (by decide) (by decide)
      (by decide) (by decide)
      (by norm_num [dispVec, posAt, shiftVec, V3.zsmul, V3.add, V3.sub, V3.normSq,
        twoAtomsApart, V3.zero, List.getD_cons_zero, List.getD_cons_succ]),
    (c2_neighborlist twoAtomsApart 2 0).2.2⟩

/-- C6: the neighbor-list builder is total on degenerate inputs — the empty
structure yields empty output arrays (for any cutoff), and a zero cutoff
yields no neighbor pairs for any structure, including structures with
overlapping atoms. -/
theorem c6_degenerate (cutoff : ℚ) (m : Nat) (a : Atoms) :
    (a.positions = [] → ASENeighborList cutoff m a = []) ∧
    ASENeighborList 0 m a = [] := by
  constructor
  · intro h
    unfold ASENeighborList nlCandidates
    rw [h]
    rfl
  · unfold ASENeighborList
    rw [List.filterMap_eq_nil_iff]
    intro t _
    split_ifs with h1 h2
    · rfl
    · have hnn := V3.normSq_nonneg (dispVec a t.1 t.2.1 t.2.2)
      rw [mul_zero] at h2
      exact absurd h2 (by linarith)
    · rfl

/-- Witness for C6: the empty structure with cutoff 5, and the overlapping
two-atom structure with cutoff 0, both yield empty neighbor lists. -/
theorem c6_degenerate_witness :
    ASENeighborList 5 1 emptyAtoms = [] ∧ ASENeighborList 0 1 overlapAtoms = [] :=
  ⟨(c6_degenerate 5 1 emptyAtoms).1 rfl, (c6_degenerate 0 1 overlapAtoms).2⟩

/-- C10: every loaded dataset item contains the reserved keys `_n_atoms`,
`_atomic_numbers`, `_positions`, `_idx`, `_cell` and `_pbc`; after the
neighbor-list transform it additionally contains `_Rij`, `_idx_i` and
`_idx_j` with all pre-existing entries unchanged (the original item is a
prefix of the transformed one); and a collated batch contains the per-atom
system index `_idx_m`. -/
theorem c10_reserved_keys (idx : Nat) (rec : StoreRecord) (cutoff : ℚ) (m : Nat)
    (items : List PropRecord) :
    kNAtoms ∈ keysOf (loadItem idx rec) ∧
    kZ ∈ keysOf (loadItem idx rec) ∧
    kR ∈ keysOf (loadItem idx rec) ∧
    kIdx ∈ keysOf (loadItem idx rec) ∧
    kCell ∈ keysOf (loadItem idx rec) ∧
    kPbc ∈ keysOf (loadItem idx rec) ∧
    kRij ∈ keysOf (neighborTransform cutoff m (loadItem idx rec)) ∧
    kIdxI ∈ keysOf (neighborTransform cutoff m (loadItem idx rec)) ∧
    kIdxJ ∈ keysOf (neighborTransform cutoff m (loadItem idx rec)) ∧
    List.IsPrefix (loadItem idx rec) (neighborTransform cutoff m (loadItem idx rec)) ∧
    kIdxM ∈ keysOf (collate items) := by
  refine ⟨?_, ?_, ?_, ?_, ?_, ?_, ?_, ?_, ?_, ⟨_, rfl⟩, ?_⟩ <;>
    simp [keysOf, loadItem, neighborTransform, collate]

/-- C8: when the energy output is differentiable, invariant under rigid
translations, and invariant under a linear isometry `Q` of coordinate
space, the forces produced by the derivative module sum to zero over all
atoms (exactly, hence within any numerical tolerance) and are
rotation-covariant: the force component at the rotated configuration along
the rotated direction equals the original force component. -/
theorem c8_forces (n : Nat) (E : Config n → ℝ) (hE : Differentiable ℝ E)
    (htrans : ∀ (R : Config n) (t : R3), E (fun i => R i + t) = E R)
    (Q : R3 →L[ℝ] R3) (hrot : ∀ R : Config n, E (fun i => Q (R i)) = E R)
    (R : Config n) (v : R3) (i : Fin n) :
    (∑ j, force n E R j v) = 0 ∧
    force n E (fun j => Q (R j)) i (Q v) = force n E R i v := by
  constructor
  · have hderiv0 : (fderiv ℝ E R) (fun _ => v) = 0 := by
      have hpath : HasDerivAt (fun t : ℝ => R + t • (fun _ => v : Config n)) (fun _ => v) 0 := by
        have h := ((hasDerivAt_id (0 : ℝ)).smul_const (fun _ => v : Config n)).const_add R
        simpa using h
      have hfd : HasFDerivAt E (fderiv ℝ E R) (R + (0 : ℝ) • (fun _ => v : Config n)) := by
        have hR : R + (0 : ℝ) • (fun _ => v : Config n) = R := by simp
        rw [hR]
        exact (hE R).hasFDerivAt
      have hcomp : HasDerivAt (fun t : ℝ => E (R + t • (fun _ => v : Config n)))
          ((fderiv ℝ E R) (fun _ => v)) 0 := hfd.comp_hasDerivAt 0 hpath
      have hconstfun : (fun t : ℝ => E (R + t • (fun _ => v : Config n))) = fun _ => E R := by
        funext t
        exact htrans R (t • v)
      have hzero : HasDerivAt (fun t : ℝ => E (R + t • (fun _ => v : Config n))) 0 0 := by
        rw [hconstfun]
        exact hasDerivAt_const 0 (E R)
      exact hcomp.unique hzero
    have hsum : (∑ j, Pi.single j v) = (fun _ => v : Config n) :=
      Finset.univ_sum_single (fun _ => v : Config n)
    calc (∑ j, force n E R j v)
        = ∑ j, -(fderiv ℝ E R) (Pi.single j v) := rfl
      _ = -(∑ j, (fderiv ℝ E R) (Pi.single j v)) := Finset.sum_neg_distrib
      _ = -((fderiv ℝ E R) (∑ j, Pi.single j v)) := by rw [map_sum]
      _ = 0 := by rw [hsum, hderiv0, neg_zero]
  · have h4 : HasFDerivAt (fun S => E ((ContinuousLinearMap.pi
        (fun j : Fin n => Q.comp (ContinuousLinearMap.proj j))) S))
        ((fderiv ℝ E ((ContinuousLinearMap.pi
          (fun j : Fin n => Q.comp (ContinuousLinearMap.proj j))) R)).comp
          (ContinuousLinearMap.pi (fun j : Fin n => Q.comp (ContinuousLinearMap.proj j)))) R :=
      (hE _).hasFDerivAt.comp R (ContinuousLinearMap.hasFDerivAt _)
    have hEcomp : (fun S => E ((ContinuousLinearMap.pi
        (fun j : Fin n => Q.comp (ContinuousLinearMap.proj j))) S)) = E := by
      funext S
      exact hrot S
    rw [hEcomp] at h4
    have h5 := h4.fderiv
    have hsingle : (ContinuousLinearMap.pi
        (fun j : Fin n => Q.comp (ContinuousLinearMap.proj j))) (Pi.single i v) =
        Pi.single i (Q v) := by
      funext j
      rw [ContinuousLinearMap.pi_apply, ContinuousLinearMap.comp_apply,
        ContinuousLinearMap.proj_apply, Pi.single_apply, Pi.single_apply]
      by_cases hji : j = i
      · rw [if_pos hji, if_pos hji]
      · rw [if_neg hji, if_neg hji, map_zero]
    have hRQ : (fun j => Q (R j)) = (ContinuousLinearMap.pi
        (fun j : Fin n => Q.comp (ContinuousLinearMap.proj j))) R := by
      funext j
      rw [ContinuousLinearMap.pi_apply, ContinuousLinearMap.comp_apply,
        ContinuousLinearMap.proj_apply]
    unfold force
    rw [hRQ, h5, ContinuousLinearMap.comp_apply, hsingle]

/-- Witness for C8: the constant-zero energy on a one-atom system, with the
identity rotation. -/
theorem c8_forces_witness :
    (∑ j, force 1 zeroE cfg0 j v1) = 0 ∧
    force 1 zeroE (fun j => (ContinuousLinearMap.id ℝ R3) (cfg0 j)) 0
        ((ContinuousLinearMap.id ℝ R3) v1) =
      force 1 zeroE cfg0 0 v1 :=
  c8_forces 1 zeroE (differentiable_const 0) (fun _ _ => rfl)
    (ContinuousLinearMap.id ℝ R3) (fun _ => rfl) cfg0 v1 0

end SchnetPack
